import Mathlib

/-!
# dockerui: cluster-aware request router

A shallow embedding of `dockerui.go`: the header copy of the unix-socket
adapter, the adapter selection of `createHandler`, the `/endpoints` listing,
the routing table (`Server.Urls`) with `ProxyCall` / `Destroy`, and the body of
the membership watch loop of `NodesUpdater`.

Library behaviour that the program only consumes is taken as a parameter:
`url.Parse` (`parse`), `os.Stat` (`stat`), the unix-socket dial and exchange
(`dial`), the string encoder of `encoding/json` (`quote`) and what serving
through a stored handler does to the response writer (`serve`).
-/

namespace DockerUI

/-! ## Go strings -/

/-- Split a character list at every occurrence of `sep`; the pieces are in
order and there is always at least one piece. -/
def splitChars (sep : Char) : List Char → List (List Char)
  | [] => [[]]
  | c :: cs =>
    if c = sep then [] :: splitChars sep cs
    else
      match splitChars sep cs with
      | [] => [[c]]
      | piece :: rest => (c :: piece) :: rest

/-- Go's `strings.Split(s, sep)` for a one-byte separator (the program only
calls it with `":"`). -/
def stringsSplit (s : String) (sep : Char) : List String :=
  (splitChars sep s.toList).map String.mk

/-- Whether `pat` occurs as a contiguous block of `s`. -/
def containsChars (pat : List Char) : List Char → Bool
  | [] => pat.isEmpty
  | c :: cs => pat.isPrefixOf (c :: cs) || containsChars pat cs

/-- Go's `strings.Contains(s, substr)`. -/
def stringsContains (s substr : String) : Bool :=
  containsChars substr.toList s.toList

/-- The bytes of a Go string (its UTF-8 encoding). -/
def utf8Bytes (s : String) : List UInt8 :=
  s.data.flatMap String.utf8EncodeChar

/-! ## Go maps and slices -/

/-- A Go `map[string]ν`: its entries in iteration order. Keys of a real map are
distinct; `set` keeps them so. -/
abbrev GoMap (ν : Type) := List (String × ν)

/-- Lookup of a key with the "comma ok" form: `none` when the key is absent. -/
def GoMap.get {ν : Type} : GoMap ν → String → Option ν
  | [], _ => none
  | (k, v) :: rest, key => if k = key then some v else GoMap.get rest key

/-- The assignment `m[key] = v`. -/
def GoMap.set {ν : Type} : GoMap ν → String → ν → GoMap ν
  | [], key, v => [(key, v)]
  | (k, x) :: rest, key, v =>
    if k = key then (key, v) :: rest else (k, x) :: GoMap.set rest key v

/-- The keys of a map, in iteration order. -/
def GoMap.keys {ν : Type} (m : GoMap ν) : List String :=
  m.map Prod.fst

/-- A Go `[]string`: `none` is the nil slice. -/
abbrev GoSlice := Option (List String)

/-- Go's `append(s, e)`. -/
def goAppend : GoSlice → String → GoSlice
  | none, e => some [e]
  | some l, e => some (l ++ [e])

/-- The elements of a slice (none for the nil slice). -/
def GoSlice.elems : GoSlice → List String
  | none => []
  | some l => l

/-! ## HTTP headers -/

/-- Bytes allowed in a header field name (the `token` characters). -/
def validHeaderFieldByte (c : Char) : Bool :=
  c.isAlphanum || "!#$%&*+-.^_|~".toList.contains c || c = '\'' || c.toNat = 96

/-- Canonical casing: upper case at the start and after each `-`, lower case
elsewhere. `upper` says whether the next letter is to be upper case. -/
def canonicalCase : Bool → List Char → List Char
  | _, [] => []
  | upper, c :: cs =>
    (if upper then c.toUpper else c.toLower) :: canonicalCase (c = '-') cs

/-- Go's `textproto.CanonicalMIMEHeaderKey`: a key with a byte that is not
allowed in a field name is returned unchanged. -/
def CanonicalMIMEHeaderKey (s : String) : String :=
  if s.toList.all validHeaderFieldByte then String.mk (canonicalCase true s.toList) else s

/-- Go's `http.Header`, a `map[string][]string`. -/
abbrev Header := GoMap (List String)

/-- The index expression `h[key]`: the nil (empty) slice when the key is absent. -/
def Header.values (h : Header) (key : String) : List String :=
  (GoMap.get h key).getD []

/-- `Header.Add`: append `value` to the values of the canonical form of `key`. -/
def Header.Add (h : Header) (key value : String) : Header :=
  GoMap.set h (CanonicalMIMEHeaderKey key) (Header.values h (CanonicalMIMEHeaderKey key) ++ [value])

/-- `Header.Set`: replace the values of the canonical form of `key`. -/
def Header.Set (h : Header) (key value : String) : Header :=
  GoMap.set h (CanonicalMIMEHeaderKey key) [value]

/-- `copyHeader(dst, src)`: for every entry of `src`, in iteration order, add
each of its values to `dst`. -/
def copyHeader (dst src : Header) : Header :=
  src.foldl (fun d kv => kv.2.foldl (fun d v => Header.Add d kv.1 v) d) dst

/-! ## Requests, responses and the response writer -/

/-- An inbound HTTP request. -/
structure Request where
  Method : String
  Path : String
  Header : Header
  Body : List UInt8
deriving DecidableEq, Repr

/-- An HTTP response: what the upstream returns, and what the caller receives. -/
structure Response where
  StatusCode : Nat
  Header : Header
  Body : List UInt8
deriving DecidableEq, Repr

/-- An `http.ResponseWriter`: the header map the handler edits, the status line
and header snapshot once they have been written, and the body written so far. -/
structure ResponseWriter where
  header : Header
  sent : Option (Nat × Header)
  body : List UInt8
deriving DecidableEq, Repr

/-- The writer a handler receives for a new request. -/
def ResponseWriter.fresh : ResponseWriter :=
  { header := [], sent := none, body := [] }

/-- `w.WriteHeader(code)`: the first call fixes the status and the headers sent;
a later call changes nothing. -/
def ResponseWriter.WriteHeader (w : ResponseWriter) (code : Nat) : ResponseWriter :=
  match w.sent with
  | some _ => w
  | none => { w with sent := some (code, w.header) }

/-- `w.Write(b)`: writes the header with status 200 first when no header has
been written yet. -/
def ResponseWriter.Write (w : ResponseWriter) (b : List UInt8) : ResponseWriter :=
  let w1 := w.WriteHeader 200
  { w1 with body := w1.body ++ b }

/-- The response the caller receives once the handler has returned: a handler
that never wrote a header gets status 200. -/
def ResponseWriter.outbound (w : ResponseWriter) : Response :=
  match w.sent with
  | some (code, h) => { StatusCode := code, Header := h, Body := w.body }
  | none => { StatusCode := 200, Header := w.header, Body := w.body }

/-- `io.Copy(w, body)`: nothing is written for an empty body. -/
def ioCopy (w : ResponseWriter) (body : List UInt8) : ResponseWriter :=
  if body.isEmpty then w else w.Write body

/-- `http.StatusInternalServerError`. -/
def StatusInternalServerError : Nat := 500

/-! ## The unix-socket adapter -/

/-- What a handler does besides writing the response, in order. -/
inductive Effect where
  | dial (path : String)
  | exchange
  | closeConn
  | closeBody
  | log (msg : String)
deriving DecidableEq, Repr

/-- An open client connection: what `c.Do(r)` returns on it. -/
abbrev Conn := Request → Except String Response

/-- The adapter for a unix-domain socket at `path`. -/
structure UnixHandler where
  path : String
deriving DecidableEq, Repr

/-- `UnixHandler.ServeHTTP`: dial the socket, send the request, copy the
response headers and body to `w`. `dial` is `net.Dial("unix", ·)`. -/
def UnixHandler.ServeHTTP (dial : String → Except String Conn) (h : UnixHandler)
    (w : ResponseWriter) (r : Request) : ResponseWriter × List Effect :=
  match dial h.path with
  | .error err =>
    (w.WriteHeader StatusInternalServerError, [.dial h.path, .log err])
  | .ok c =>
    match c r with
    | .error err =>
      (w.WriteHeader StatusInternalServerError,
        [.dial h.path, .exchange, .log err, .closeConn])
    | .ok res =>
      let w1 := { w with header := copyHeader w.header res.Header }
      (ioCopy w1 res.Body, [.dial h.path, .exchange, .closeBody, .closeConn])

/-! ## Adapter construction -/

/-- How a call ends: with a value, in `log.Fatal` (the process exits), or in a
run-time panic. -/
inductive Outcome (α : Type) where
  | ok (a : α)
  | fatal (msg : String)
  | panic (msg : String)
deriving DecidableEq, Repr

/-- An `http.Handler` of the program: a reverse proxy to a parsed URL, or the
unix-socket adapter. `U` is the type of parsed URLs. -/
inductive Handler (U : Type) where
  | reverseProxy (target : U)
  | unix (h : UnixHandler)
deriving DecidableEq, Repr

/-- `createTcpHandler(e)`: fatal when `url.Parse` rejects `e`. -/
def createTcpHandler {U : Type} (parse : String → Except String U) (e : String) :
    Outcome (Handler U) :=
  match parse e with
  | .error err => .fatal err
  | .ok u => .ok (.reverseProxy u)

/-- `createUnixHandler(e)`. -/
def createUnixHandler {U : Type} (e : String) : Handler U :=
  .unix { path := e }

/-- The error of `os.Stat`. -/
inductive StatError where
  | notExist
  | other (msg : String)
deriving DecidableEq, Repr

/-- `createHandler(dir, e)`. `stat` is `os.Stat`. -/
def createHandler {U : Type} (parse : String → Except String U)
    (stat : String → Except StatError Unit) (_dir e : String) : Outcome (Handler U) :=
  if stringsContains e "http" then
    createTcpHandler parse e
  else
    match stat e with
    | .error .notExist => .fatal ("unix socket " ++ e ++ " does not exist")
    | .error (.other msg) => .fatal msg
    | .ok _ => .ok (createUnixHandler e)

/-! ## The endpoint set and the `/endpoints` listing -/

/-- Modelled from the spec: the generated set type `EndpointsSet` (its file is
not part of the sources). "EndpointSet: set of distinct network-address
strings. Invariant: no duplicates". `elems` is the set in iteration order. -/
structure EndpointsSet where
  elems : List String
  nodup : elems.Nodup

/-- Modelled from the spec: the empty `EndpointsSet`. -/
def EndpointsSet.empty : EndpointsSet :=
  { elems := [], nodup := List.nodup_nil }

/-- Modelled from the spec: `Add(addr)` of `EndpointsSet`; adding an element
that is already there changes nothing. -/
def EndpointsSet.Add (s : EndpointsSet) (a : String) : EndpointsSet :=
  if h : a ∈ s.elems then s
  else
    { elems := s.elems ++ [a]
      nodup := by
        rw [List.nodup_append]
        refine ⟨s.nodup, List.nodup_singleton a, ?_⟩
        intro x hx hxa
        rw [List.mem_singleton] at hxa
        exact h (hxa ▸ hx) }

/-- Modelled from the spec: `Remove(addr)` of `EndpointsSet`; removing an
element that is not there changes nothing. -/
def EndpointsSet.Remove (s : EndpointsSet) (a : String) : EndpointsSet :=
  { elems := s.elems.filter (fun e => decide (e ≠ a))
    nodup := s.nodup.filter _ }

/-- Modelled from the spec: `NewEndpointsSet(addrs)`, the set of the given
addresses. -/
def NewEndpointsSet (addrs : List String) : EndpointsSet :=
  addrs.foldl EndpointsSet.Add EndpointsSet.empty

/-- Go's `json.Marshal` of a `[]string`: the nil slice is `null`, any other
slice an array of the encoded strings. `quote` encodes one string. For a
`[]string` it returns no error, so the handler's early return on an error is
never taken. -/
def jsonMarshal (quote : String → String) : GoSlice → String
  | none => "null"
  | some l => "[" ++ ",".intercalate (l.map quote) ++ "]"

/-- The slice `ep` the `/endpoints` handler builds: every element of the set
other than `"127.0.0.1"`, appended in iteration order to a nil slice. -/
def endpointsList (endpoints : EndpointsSet) : GoSlice :=
  endpoints.elems.foldl (fun ep e => if e ≠ "127.0.0.1" then goAppend ep e else ep) none

/-- The handler of `/endpoints` registered by `InitDispatch`. -/
def endpointsHandler (quote : String → String) (endpoints : EndpointsSet)
    (w : ResponseWriter) : ResponseWriter :=
  let result := utf8Bytes (jsonMarshal quote (endpointsList endpoints))
  let w1 := { w with header := Header.Set w.header "Content-Length" (toString result.length) }
  let w2 := { w1 with header := Header.Set w1.header "Content-Type" "application/json" }
  w2.Write result

/-! ## The routing table -/

/-- The `Server`: the routing table `Urls` (a nil function value is `none`) and
the listen address. -/
structure Server (U : Type) where
  Urls : GoMap (Option (Handler U))
  Address : String
deriving DecidableEq, Repr

/-- The index expression `s.Urls[fName]`: nil when there is no entry. -/
def Server.lookup {U : Type} (s : Server U) (fName : String) : Option (Handler U) :=
  (GoMap.get s.Urls fName).getD none

/-- `Server.Destroy(fName)`. -/
def Server.Destroy {U : Type} (s : Server U) (fName : String) : Server U :=
  { s with Urls := GoMap.set s.Urls fName none }

/-- One call of a stored handler: the handler, and the writer and request it
was called with. -/
structure Invocation (U : Type) where
  handler : Handler U
  w : ResponseWriter
  r : Request
deriving DecidableEq, Repr

/-- What `ProxyCall` leaves behind: the server, the response writer and the
handler calls it made, in order. -/
structure ProxyResult (U : Type) where
  server : Server U
  w : ResponseWriter
  invoked : List (Invocation U)
deriving DecidableEq, Repr

/-- `Server.ProxyCall(w, r, fName)`. `serve h w r` is the writer after
`h.ServeHTTP(w, r)`. -/
def Server.ProxyCall {U : Type} (serve : Handler U → ResponseWriter → Request → ResponseWriter)
    (s : Server U) (w : ResponseWriter) (r : Request) (fName : String) : ProxyResult U :=
  match s.lookup fName with
  | some h => { server := s, w := serve h w r, invoked := [{ handler := h, w := w, r := r }] }
  | none => { server := s, w := w, invoked := [] }

/-! ## The membership watch loop -/

/-- The event kinds of `memberlist`. -/
inductive NodeEventType where
  | NodeJoin
  | NodeLeave
  | NodeUpdate
deriving DecidableEq, Repr

/-- A cluster node: its name and the text of its address (`Addr.String()`). -/
structure Node where
  Name : String
  Addr : String
deriving DecidableEq, Repr

/-- A membership event. -/
structure NodeEvent where
  Event : NodeEventType
  Node : Node
deriving DecidableEq, Repr

/-- What the watch loop reads and writes: the server and the package-level
`endpoints`. -/
structure State (U : Type) where
  server : Server U
  endpoints : EndpointsSet

/-- The body of the loop of `NodesUpdater` for one event. `addr` is the listen
address flag. -/
def handleEvent {U : Type} (parse : String → Except String U) (addr : String)
    (st : State U) (e : NodeEvent) : Outcome (State U) :=
  match e.Event with
  | .NodeJoin =>
    let laddr := e.Node.Addr
    let endpoints := st.endpoints.Add laddr
    match (stringsSplit addr ':')[1]? with
    | none => .panic "index out of range"
    | some port =>
      match createTcpHandler parse ("http://" ++ laddr ++ ":" ++ port ++ "/dockerapi/local") with
      | .ok h =>
        .ok { server := { st.server with Urls := GoMap.set st.server.Urls e.Node.Name (some h) }
              endpoints := endpoints }
      | .fatal msg => .fatal msg
      | .panic msg => .panic msg
  | _ =>
    let laddr := e.Node.Addr
    .ok { server := { st.server with Urls := GoMap.set st.server.Urls e.Node.Name none }
          endpoints := st.endpoints.Remove laddr }

/-- The loop of `NodesUpdater` over the events received so far: it stops at the
first event whose processing does not return. -/
def watchLoop {U : Type} (parse : String → Except String U) (addr : String) :
    State U → List NodeEvent → Outcome (State U)
  | st, [] => .ok st
  | st, e :: es =>
    match handleEvent parse addr st e with
    | .ok st1 => watchLoop parse addr st1 es
    | .fatal msg => .fatal msg
    | .panic msg => .panic msg

/-- Apply `f` to the value of an outcome that has one. -/
def Outcome.map {α β : Type} (f : α → β) : Outcome α → Outcome β
  | .ok a => .ok (f a)
  | .fatal msg => .fatal msg
  | .panic msg => .panic msg

/-- A URL parser that accepts every string and keeps its text: the most
permissive behaviour `url.Parse` could have. -/
def parseAny : String → Except String String :=
  fun e => .ok e

/-- A URL parser that rejects an `http://` URL whose authority ends in a colon
followed by something that is not a decimal number (what Go's `url.Parse`
reports as an invalid port after the host) and accepts every other string,
keeping its text. -/
def parsePortChecked (e : String) : Except String String :=
  if "http://".toList.isPrefixOf e.toList then
    let authority := (e.toList.drop 7).takeWhile (fun c => c ≠ '/')
    match splitChars ':' authority with
    | [] => .ok e
    | [_] => .ok e
    | pieces =>
      if (pieces.getLast?.getD []).all Char.isDigit then .ok e else .error "invalid port after host"
  else .ok e

/-- The state the watch loop starts in with the default flags: no routes, and
the seed `127.0.0.1` as the only endpoint. -/
def initialState : State String :=
  { server := { Urls := [], Address := ":9000" }
    endpoints := NewEndpointsSet (stringsSplit "127.0.0.1" ',') }

/-- The state after `initialState` has processed the Join of `peer` at
`10.0.0.2` with listen address `:9000`. -/
def joinedState : State String :=
  { server :=
      { Urls := [("peer", some (.reverseProxy "http://10.0.0.2:9000/dockerapi/local"))]
        Address := ":9000" }
    endpoints := NewEndpointsSet ["127.0.0.1", "10.0.0.2"] }

/-- A sample request. -/
def sampleRequest : Request :=
  { Method := "GET", Path := "/dockerapi/peer", Header := [], Body := [] }

/-- A sample behaviour of stored handlers: a reverse proxy answers with the text
of its target. -/
def sampleServe : Handler String → ResponseWriter → Request → ResponseWriter
  | .reverseProxy u, w, _ => w.Write (utf8Bytes u)
  | .unix _, w, _ => w

/-- A unix-socket responder that answers every request with `res`. -/
def responder (res : Response) : String → Except String Conn :=
  fun _ => .ok (fun _ => .ok res)

/-! ## The wording of the specification -/

/-- Characters of a URL scheme after its first letter. -/
def isSchemeChar (c : Char) : Bool :=
  c.isAlphanum || c = '+' || c = '-' || c = '.'

/-- The specification's "URL-like string beginning with a scheme": a letter,
then scheme characters, then `://`. -/
def beginsWithScheme (e : String) : Bool :=
  match e.toList with
  | [] => false
  | c :: cs => c.isAlpha && "://".toList.isPrefixOf (cs.dropWhile isSchemeChar)

/-- The specification's "port component" of a listen address: what follows its
last colon. -/
def listenPort (addr : String) : String :=
  String.mk ((splitChars ':' addr.toList).getLast?.getD [])


/-! ## Go maps: lookup after assignment -/

theorem GoMap.get_set_same {ν : Type} (m : GoMap ν) (k : String) (v : ν) :
    GoMap.get (GoMap.set m k v) k = some v := by
  induction m with
  | nil => simp [GoMap.set, GoMap.get]
  | cons kv rest ih =>
    obtain ⟨k1, x⟩ := kv
    by_cases h : k1 = k
    · simp [GoMap.set, GoMap.get, h]
    · simp [GoMap.set, GoMap.get, h, ih]

theorem GoMap.get_set_other {ν : Type} (m : GoMap ν) (k key : String) (v : ν) (h : k ≠ key) :
    GoMap.get (GoMap.set m k v) key = GoMap.get m key := by
  induction m with
  | nil => simp [GoMap.set, GoMap.get, h]
  | cons kv rest ih =>
    obtain ⟨k1, x⟩ := kv
    by_cases h1 : k1 = k
    · subst h1
      simp [GoMap.set, GoMap.get, h]
    · simp only [GoMap.set, h1, if_false, GoMap.get, ih]

theorem GoMap.get_of_not_mem_keys {ν : Type} (m : GoMap ν) (key : String)
    (h : key ∉ GoMap.keys m) : GoMap.get m key = none := by
  induction m with
  | nil => rfl
  | cons kv rest ih =>
    obtain ⟨k1, x⟩ := kv
    simp only [GoMap.keys, List.map_cons, List.mem_cons, not_or] at h
    have h1 : ¬ k1 = key := fun e => h.1 e.symm
    simp only [GoMap.get, h1, if_false]
    exact ih h.2

/-! ## Headers -/

theorem Header.values_Add (h : Header) (key value k : String) :
    Header.values (Header.Add h key value) k =
      if CanonicalMIMEHeaderKey key = k then Header.values h k ++ [value] else Header.values h k := by
  unfold Header.Add
  by_cases hk : CanonicalMIMEHeaderKey key = k
  · subst hk
    simp [Header.values, GoMap.get_set_same]
  · simp only [Header.values, GoMap.get_set_other _ _ _ _ hk, hk, if_false]

theorem Header.values_foldl_Add (vv : List String) (h : Header) (key k : String) :
    Header.values (vv.foldl (fun d v => Header.Add d key v) h) k =
      if CanonicalMIMEHeaderKey key = k then Header.values h k ++ vv else Header.values h k := by
  induction vv generalizing h with
  | nil => simp
  | cons v rest ih =>
    rw [List.foldl_cons, ih, Header.values_Add]
    by_cases hk : CanonicalMIMEHeaderKey key = k <;> simp [hk]

/-- After `copyHeader`, the values under `k` are the old ones followed by the
values of every entry of `src` whose key has canonical form `k`, in iteration
order. -/
theorem copyHeader_values (src dst : Header) (k : String) :
    Header.values (copyHeader dst src) k =
      Header.values dst k ++
        (src.filter (fun kv => decide (CanonicalMIMEHeaderKey kv.1 = k))).flatMap Prod.snd := by
  unfold copyHeader
  induction src generalizing dst with
  | nil => simp
  | cons kv rest ih =>
    rw [List.foldl_cons, ih, Header.values_foldl_Add]
    by_cases hk : CanonicalMIMEHeaderKey kv.1 = k
    · simp [hk, List.filter_cons]
    · simp [hk, List.filter_cons]

theorem flatMap_values_of_canonical (src : Header) (k : String)
    (hkeys : (GoMap.keys src).Nodup)
    (hcanon : ∀ key ∈ GoMap.keys src, CanonicalMIMEHeaderKey key = key) :
    (src.filter (fun kv => decide (CanonicalMIMEHeaderKey kv.1 = k))).flatMap Prod.snd =
      Header.values src k := by
  induction src with
  | nil => rfl
  | cons kv rest ih =>
    obtain ⟨k1, vv⟩ := kv
    simp only [GoMap.keys, List.map_cons, List.nodup_cons] at hkeys
    have hc1 : CanonicalMIMEHeaderKey k1 = k1 := hcanon k1 (by simp [GoMap.keys])
    have hrest : ∀ key ∈ GoMap.keys rest, CanonicalMIMEHeaderKey key = key := by
      intro key hkey
      exact hcanon key (by simp only [GoMap.keys, List.map_cons, List.mem_cons]; exact Or.inr hkey)
    have ih1 := ih hkeys.2 hrest
    by_cases hk : k1 = k
    · subst hk
      have hnone : GoMap.get rest k1 = none := GoMap.get_of_not_mem_keys rest k1 hkeys.1
      have hnil : Header.values rest k1 = [] := by simp [Header.values, hnone]
      rw [List.filter_cons]
      simp only [hc1, decide_True, if_true, List.flatMap_cons]
      rw [ih1, hnil]
      simp [Header.values, GoMap.get]
    · rw [List.filter_cons]
      simp only [hc1, hk, decide_False, if_false, Bool.false_eq_true]
      rw [ih1]
      simp [Header.values, GoMap.get, hk]

/-- C8 (as amended): for every destination header map and every source header
map whose keys are in canonical MIME form (as the keys of a parsed response
are), after `copyHeader(dst, src)` each key of `src` maps in `dst` to the values
`dst` had for it followed by all values of `src` for it, in order, and every
key that is not a key of `src` keeps its values. -/
theorem copyHeader_appends_canonical (dst src : Header)
    (hkeys : (GoMap.keys src).Nodup)
    (hcanon : ∀ key ∈ GoMap.keys src, CanonicalMIMEHeaderKey key = key) :
    (∀ k ∈ GoMap.keys src,
        Header.values (copyHeader dst src) k = Header.values dst k ++ Header.values src k) ∧
      (∀ k, k ∉ GoMap.keys src →
        Header.values (copyHeader dst src) k = Header.values dst k) := by
  refine ⟨?_, ?_⟩
  · intro k _
    rw [copyHeader_values, flatMap_values_of_canonical src k hkeys hcanon]
  · intro k hk
    rw [copyHeader_values, flatMap_values_of_canonical src k hkeys hcanon]
    simp [Header.values, GoMap.get_of_not_mem_keys src k hk]

/-- C8, witness: a response header with a repeated `Set-Cookie` copied into a
destination that already has one cookie and a `Date`. -/
theorem copyHeader_appends_canonical_witness :
    (∀ k ∈ GoMap.keys [("Set-Cookie", ["b=2", "c=3"]), ("X-Test", ["v"])],
        Header.values
            (copyHeader [("Set-Cookie", ["a=1"]), ("Date", ["today"])]
              [("Set-Cookie", ["b=2", "c=3"]), ("X-Test", ["v"])]) k =
          Header.values [("Set-Cookie", ["a=1"]), ("Date", ["today"])] k ++
            Header.values [("Set-Cookie", ["b=2", "c=3"]), ("X-Test", ["v"])] k) ∧
      (∀ k, k ∉ GoMap.keys [("Set-Cookie", ["b=2", "c=3"]), ("X-Test", ["v"])] →
        Header.values
            (copyHeader [("Set-Cookie", ["a=1"]), ("Date", ["today"])]
              [("Set-Cookie", ["b=2", "c=3"]), ("X-Test", ["v"])]) k =
          Header.values [("Set-Cookie", ["a=1"]), ("Date", ["today"])] k) :=
  copyHeader_appends_canonical [("Set-Cookie", ["a=1"]), ("Date", ["today"])]
    [("Set-Cookie", ["b=2", "c=3"]), ("X-Test", ["v"])] (by decide) (by decide)

/-- C8, counterexample: a source key that is not in canonical form, `x-test`.
Its value lands under `X-Test`: the source key itself gets nothing, and
`X-Test`, which is not a key of the source, does not keep its values. -/
theorem copyHeader_noncanonical_key :
    Header.values (copyHeader [("X-Test", ["a"])] [("x-test", ["v"])]) "x-test" ≠
        Header.values [("X-Test", ["a"])] "x-test" ++ Header.values [("x-test", ["v"])] "x-test" ∧
      "x-test" ∈ GoMap.keys [("x-test", ["v"])] ∧
      "X-Test" ∉ GoMap.keys [("x-test", ["v"])] ∧
      Header.values (copyHeader [("X-Test", ["a"])] [("x-test", ["v"])]) "X-Test" ≠
        Header.values [("X-Test", ["a"])] "X-Test" := by
  decide


/-! ## The routing table -/

theorem Server.ProxyCall_of_lookup_none {U : Type}
    (serve : Handler U → ResponseWriter → Request → ResponseWriter) (s : Server U)
    (w : ResponseWriter) (r : Request) (fName : String) (h : s.lookup fName = none) :
    s.ProxyCall serve w r fName = { server := s, w := w, invoked := [] } := by
  simp [Server.ProxyCall, h]

theorem Server.ProxyCall_of_lookup_some {U : Type}
    (serve : Handler U → ResponseWriter → Request → ResponseWriter) (s : Server U)
    (w : ResponseWriter) (r : Request) (fName : String) (h : Handler U)
    (hl : s.lookup fName = some h) :
    s.ProxyCall serve w r fName =
      { server := s, w := serve h w r, invoked := [{ handler := h, w := w, r := r }] } := by
  simp [Server.ProxyCall, hl]

theorem Server.lookup_set {U : Type} (s : Server U) (fName : String) (v : Option (Handler U)) :
    Server.lookup { s with Urls := GoMap.set s.Urls fName v } fName = v := by
  simp [Server.lookup, GoMap.get_set_same]

theorem handleEvent_leave {U : Type} (parse : String → Except String U) (addr : String)
    (st : State U) (e : NodeEvent) (he : e.Event ≠ .NodeJoin) :
    handleEvent parse addr st e =
      .ok { server := { st.server with Urls := GoMap.set st.server.Urls e.Node.Name none }
            endpoints := st.endpoints.Remove e.Node.Addr } := by
  unfold handleEvent
  cases hev : e.Event with
  | NodeJoin => exact absurd hev he
  | NodeLeave => rfl
  | NodeUpdate => rfl

theorem handleEvent_join {U : Type} (parse : String → Except String U) (addr : String)
    (st : State U) (e : NodeEvent) (he : e.Event = .NodeJoin) :
    handleEvent parse addr st e =
      match (stringsSplit addr ':')[1]? with
      | none => .panic "index out of range"
      | some port =>
        match parse ("http://" ++ e.Node.Addr ++ ":" ++ port ++ "/dockerapi/local") with
        | .ok u =>
          .ok { server := { st.server with
                  Urls := GoMap.set st.server.Urls e.Node.Name (some (.reverseProxy u)) }
                endpoints := st.endpoints.Add e.Node.Addr }
        | .error err => .fatal err := by
  unfold handleEvent
  rw [he]
  simp only [createTcpHandler]
  cases (stringsSplit addr ':')[1]? with
  | none => rfl
  | some port =>
    simp only
    cases parse ("http://" ++ e.Node.Addr ++ ":" ++ port ++ "/dockerapi/local") <;> rfl

/-- C1: after the loop has processed a Join event for `(P, A)`, `ProxyCall` for
`P` calls exactly the reverse proxy that event installed, the one for the
parsed target built from `A`, once, with the caller's writer and request; after
the loop has then processed a Leave event for `P`, the lookup of `P` is nil
and `ProxyCall` for `P` calls nothing and leaves the writer as it was. -/
theorem join_routes_then_leave_clears {U : Type} (parse : String → Except String U)
    (serve : Handler U → ResponseWriter → Request → ResponseWriter) (addr : String)
    (st st1 : State U) (P A A2 : String) (w : ResponseWriter) (r : Request)
    (hjoin : handleEvent parse addr st { Event := .NodeJoin, Node := { Name := P, Addr := A } }
      = .ok st1) :
    (∃ port u, (stringsSplit addr ':')[1]? = some port ∧
        parse ("http://" ++ A ++ ":" ++ port ++ "/dockerapi/local") = .ok u ∧
        st1.server.lookup P = some (.reverseProxy u) ∧
        st1.server.ProxyCall serve w r P =
          { server := st1.server, w := serve (.reverseProxy u) w r,
            invoked := [{ handler := .reverseProxy u, w := w, r := r }] }) ∧
      ∃ st2, handleEvent parse addr st1 { Event := .NodeLeave, Node := { Name := P, Addr := A2 } }
          = .ok st2 ∧
        st2.server.lookup P = none ∧
        st2.server.ProxyCall serve w r P = { server := st2.server, w := w, invoked := [] } := by
  refine ⟨?_, ?_⟩
  · rw [handleEvent_join parse addr st _ rfl] at hjoin
    cases hs : (stringsSplit addr ':')[1]? with
    | none => rw [hs] at hjoin; cases hjoin
    | some port =>
      rw [hs] at hjoin
      simp only at hjoin
      cases hp : parse ("http://" ++ A ++ ":" ++ port ++ "/dockerapi/local") with
      | error err => rw [hp] at hjoin; cases hjoin
      | ok u =>
        rw [hp] at hjoin
        simp only [Outcome.ok.injEq] at hjoin
        subst hjoin
        have hl := Server.lookup_set st.server P (some (Handler.reverseProxy u))
        exact ⟨port, u, rfl, hp, hl, Server.ProxyCall_of_lookup_some serve _ w r P _ hl⟩
  · refine ⟨_, handleEvent_leave parse addr st1 _ (by simp), ?_, ?_⟩
    · exact Server.lookup_set st1.server P none
    · exact Server.ProxyCall_of_lookup_none serve _ w r P (Server.lookup_set st1.server P none)


/-- C1, witness: the default state, listen address `:9000`, peer `peer` at
`10.0.0.2`. -/
theorem join_routes_then_leave_clears_witness :
    handleEvent parseAny ":9000" initialState
        { Event := .NodeJoin, Node := { Name := "peer", Addr := "10.0.0.2" } } = .ok joinedState ∧
      ((∃ port u, (stringsSplit ":9000" ':')[1]? = some port ∧
          parseAny ("http://" ++ "10.0.0.2" ++ ":" ++ port ++ "/dockerapi/local") = .ok u ∧
          joinedState.server.lookup "peer" = some (.reverseProxy u) ∧
          joinedState.server.ProxyCall sampleServe ResponseWriter.fresh sampleRequest "peer" =
            { server := joinedState.server
              w := sampleServe (.reverseProxy u) ResponseWriter.fresh sampleRequest
              invoked :=
                [{ handler := .reverseProxy u, w := ResponseWriter.fresh, r := sampleRequest }] }) ∧
        ∃ st2, handleEvent parseAny ":9000" joinedState
            { Event := .NodeLeave, Node := { Name := "peer", Addr := "10.0.0.2" } } = .ok st2 ∧
          st2.server.lookup "peer" = none ∧
          st2.server.ProxyCall sampleServe ResponseWriter.fresh sampleRequest "peer" =
            { server := st2.server, w := ResponseWriter.fresh, invoked := [] }) :=
  ⟨rfl,
    join_routes_then_leave_clears parseAny sampleServe ":9000" initialState joinedState
      "peer" "10.0.0.2" "10.0.0.2" ResponseWriter.fresh sampleRequest rfl⟩

/-- C7: `ProxyCall` calls the entry's adapter exactly once, with the caller's
writer and request, when the name maps to a non-nil adapter; when the name has
no entry or maps to nil (never joined, removed by a Leave event, or removed by
`Destroy`) it calls nothing and leaves the writer and the routing table as they
were. -/
theorem ProxyCall_calls_present_adapter_only {U : Type}
    (serve : Handler U → ResponseWriter → Request → ResponseWriter) (s : Server U)
    (w : ResponseWriter) (r : Request) (fName : String) :
    (∀ h, GoMap.get s.Urls fName = some (some h) →
        s.ProxyCall serve w r fName =
          { server := s, w := serve h w r, invoked := [{ handler := h, w := w, r := r }] }) ∧
      (GoMap.get s.Urls fName = none →
        s.ProxyCall serve w r fName = { server := s, w := w, invoked := [] }) ∧
      (GoMap.get s.Urls fName = some none →
        s.ProxyCall serve w r fName = { server := s, w := w, invoked := [] }) ∧
      (s.Destroy fName).ProxyCall serve w r fName =
        { server := s.Destroy fName, w := w, invoked := [] } ∧
      ∀ (parse : String → Except String U) (addr : String) (endpoints : EndpointsSet)
        (A : String),
        ∃ st2, handleEvent parse addr { server := s, endpoints := endpoints }
            { Event := .NodeLeave, Node := { Name := fName, Addr := A } } = .ok st2 ∧
          st2.server.ProxyCall serve w r fName =
            { server := st2.server, w := w, invoked := [] } := by
  refine ⟨?_, ?_, ?_, ?_, ?_⟩
  · intro h hg
    exact Server.ProxyCall_of_lookup_some serve s w r fName h (by simp [Server.lookup, hg])
  · intro hg
    exact Server.ProxyCall_of_lookup_none serve s w r fName (by simp [Server.lookup, hg])
  · intro hg
    exact Server.ProxyCall_of_lookup_none serve s w r fName (by simp [Server.lookup, hg])
  · exact Server.ProxyCall_of_lookup_none serve _ w r fName (Server.lookup_set s fName none)
  · intro parse addr endpoints A
    refine ⟨_, handleEvent_leave parse addr _ _ (by simp), ?_⟩
    exact Server.ProxyCall_of_lookup_none serve _ w r fName (Server.lookup_set s fName none)

/-- C7, witness: the routing table of `joinedState`, asked for `peer` (present),
for `other` (never joined) and for `peer` after `Destroy`. -/
theorem ProxyCall_calls_present_adapter_only_witness :
    joinedState.server.ProxyCall sampleServe ResponseWriter.fresh sampleRequest "peer" =
        { server := joinedState.server
          w := sampleServe (.reverseProxy "http://10.0.0.2:9000/dockerapi/local")
            ResponseWriter.fresh sampleRequest
          invoked :=
            [{ handler := .reverseProxy "http://10.0.0.2:9000/dockerapi/local"
               w := ResponseWriter.fresh, r := sampleRequest }] } ∧
      joinedState.server.ProxyCall sampleServe ResponseWriter.fresh sampleRequest "other" =
        { server := joinedState.server, w := ResponseWriter.fresh, invoked := [] } ∧
      (joinedState.server.Destroy "peer").ProxyCall sampleServe ResponseWriter.fresh
          sampleRequest "peer" =
        { server := joinedState.server.Destroy "peer", w := ResponseWriter.fresh, invoked := [] } :=
  ⟨(ProxyCall_calls_present_adapter_only sampleServe joinedState.server ResponseWriter.fresh
      sampleRequest "peer").1 _ rfl,
    (ProxyCall_calls_present_adapter_only sampleServe joinedState.server ResponseWriter.fresh
      sampleRequest "other").2.1 rfl,
    (ProxyCall_calls_present_adapter_only sampleServe joinedState.server ResponseWriter.fresh
      sampleRequest "peer").2.2.2.1⟩

/-! ## The unix-socket adapter -/

theorem ResponseWriter.WriteHeader_fresh (w : ResponseWriter) (code : Nat) (h : w.sent = none) :
    (w.WriteHeader code).outbound = { StatusCode := code, Header := w.header, Body := w.body } := by
  obtain ⟨hd, sent, body⟩ := w
  simp only at h
  subst h
  rfl

/-- C3: when the socket cannot be dialled, or the exchange on the connection
fails, the outbound response of a request that had nothing written yet has
status 500 and the header and body the writer had before (nothing of an
upstream response), and the handler returns after one dial and at most one
exchange. -/
theorem ServeHTTP_failure_is_500 (dial : String → Except String Conn) (h : UnixHandler)
    (w : ResponseWriter) (r : Request) (hfresh : w.sent = none)
    (hfail : (∃ err, dial h.path = .error err) ∨
      ∃ c err, dial h.path = .ok c ∧ c r = .error err) :
    (h.ServeHTTP dial w r).1.outbound =
        { StatusCode := 500, Header := w.header, Body := w.body } ∧
      (h.ServeHTTP dial w r).1.header = w.header ∧
      (h.ServeHTTP dial w r).2.count (.dial h.path) = 1 ∧
      (h.ServeHTTP dial w r).2.count .exchange ≤ 1 := by
  have hw : (w.WriteHeader StatusInternalServerError).header = w.header := by
    simp [ResponseWriter.WriteHeader, hfresh]
  rcases hfail with ⟨err, hd⟩ | ⟨c, err, hd, hc⟩
  · simp only [UnixHandler.ServeHTTP, hd]
    refine ⟨ResponseWriter.WriteHeader_fresh w _ hfresh, hw, ?_, ?_⟩ <;> simp
  · simp only [UnixHandler.ServeHTTP, hd, hc]
    refine ⟨ResponseWriter.WriteHeader_fresh w _ hfresh, hw, ?_, ?_⟩ <;> simp

/-- C3, witness: a socket path nobody listens on. -/
theorem ServeHTTP_failure_is_500_witness :
    (UnixHandler.ServeHTTP (fun _ => .error "connect: no such file or directory")
          { path := "/var/run/docker.sock" } ResponseWriter.fresh sampleRequest).1.outbound =
        { StatusCode := 500, Header := ResponseWriter.fresh.header,
          Body := ResponseWriter.fresh.body } ∧
      (UnixHandler.ServeHTTP (fun _ => .error "connect: no such file or directory")
          { path := "/var/run/docker.sock" } ResponseWriter.fresh sampleRequest).1.header =
        ResponseWriter.fresh.header ∧
      (UnixHandler.ServeHTTP (fun _ => .error "connect: no such file or directory")
          { path := "/var/run/docker.sock" } ResponseWriter.fresh sampleRequest).2.count
          (.dial "/var/run/docker.sock") = 1 ∧
      (UnixHandler.ServeHTTP (fun _ => .error "connect: no such file or directory")
          { path := "/var/run/docker.sock" } ResponseWriter.fresh sampleRequest).2.count
          .exchange ≤ 1 :=
  ServeHTTP_failure_is_500 (fun _ => .error "connect: no such file or directory")
    { path := "/var/run/docker.sock" } ResponseWriter.fresh sampleRequest rfl
    (Or.inl ⟨"connect: no such file or directory", rfl⟩)

/-- On success the outbound status is the implicit 200 of the first write, not
the upstream status: the handler never calls `WriteHeader` with it. -/
theorem ServeHTTP_success_outbound (path : String) (res : Response) (r : Request) :
    (UnixHandler.ServeHTTP (responder res) { path := path } ResponseWriter.fresh r).1.outbound =
      { StatusCode := 200, Header := copyHeader [] res.Header, Body := res.Body } := by
  simp only [UnixHandler.ServeHTTP, responder, ioCopy, ResponseWriter.fresh]
  cases hb : res.Body with
  | nil => simp [ResponseWriter.outbound]
  | cons b bs => simp [ResponseWriter.outbound, ResponseWriter.Write, ResponseWriter.WriteHeader]

/-- C2, at the failing input: the responder answers 201 with `X-Test: v` and
body `hello`; the outbound response has the header and the body, and status 200. -/
theorem ServeHTTP_201_becomes_200 :
    (UnixHandler.ServeHTTP
        (responder { StatusCode := 201, Header := [("X-Test", ["v"])], Body := utf8Bytes "hello" })
        { path := "/var/run/docker.sock" } ResponseWriter.fresh sampleRequest).1.outbound =
      { StatusCode := 200, Header := [("X-Test", ["v"])], Body := utf8Bytes "hello" } := by
  rw [ServeHTTP_success_outbound]
  decide


/-! ## The `/endpoints` listing -/

theorem endpointsList_foldl_elems (l : List String) (ep : GoSlice) :
    GoSlice.elems
        (l.foldl (fun ep e => if e ≠ "127.0.0.1" then goAppend ep e else ep) ep) =
      GoSlice.elems ep ++ l.filter (fun e => decide (e ≠ "127.0.0.1")) := by
  induction l generalizing ep with
  | nil => simp
  | cons a rest ih =>
    rw [List.foldl_cons, ih]
    by_cases ha : a = "127.0.0.1"
    · simp [ha]
    · cases ep <;> simp [ha, goAppend, GoSlice.elems, List.filter_cons]

theorem endpointsList_elems (endpoints : EndpointsSet) :
    (endpointsList endpoints).elems =
      endpoints.elems.filter (fun e => decide (e ≠ "127.0.0.1")) := by
  unfold endpointsList
  rw [endpointsList_foldl_elems]
  rfl

/-- C4: for every state of the endpoint set, the list the `/endpoints` handler
serialises does not contain `127.0.0.1`, contains every other address of the
set exactly once and nothing else, and its encoding is what the handler
writes. -/
theorem endpoints_listing_excludes_loopback (endpoints : EndpointsSet) :
    "127.0.0.1" ∉ (endpointsList endpoints).elems ∧
      (∀ a ∈ endpoints.elems, a ≠ "127.0.0.1" → (endpointsList endpoints).elems.count a = 1) ∧
      (∀ a ∈ (endpointsList endpoints).elems, a ∈ endpoints.elems) ∧
      ∀ (quote : String → String) (w : ResponseWriter),
        (endpointsHandler quote endpoints w).body =
          w.body ++ utf8Bytes (jsonMarshal quote (endpointsList endpoints)) := by
  rw [endpointsList_elems]
  refine ⟨?_, ?_, ?_, ?_⟩
  · simp [List.mem_filter]
  · intro a ha hne
    apply List.count_eq_one_of_mem (endpoints.nodup.filter _)
    simp [List.mem_filter, ha, hne]
  · intro a ha
    exact (List.mem_filter.mp ha).1
  · intro quote w
    simp only [endpointsHandler, ResponseWriter.Write, ResponseWriter.WriteHeader]
    cases w.sent <;> rfl

/-- C4, witness: a set that holds the loopback address and two peers. -/
theorem endpoints_listing_excludes_loopback_witness :
    "127.0.0.1" ∉ (endpointsList (NewEndpointsSet ["10.0.0.2", "127.0.0.1", "10.0.0.3"])).elems ∧
      (endpointsList (NewEndpointsSet ["10.0.0.2", "127.0.0.1", "10.0.0.3"])).elems.count
        "10.0.0.3" = 1 :=
  ⟨(endpoints_listing_excludes_loopback _).1,
    (endpoints_listing_excludes_loopback _).2.1 "10.0.0.3" (by decide) (by decide)⟩

/-- The headers of the `/endpoints` response: `Content-Type` is
`application/json` and `Content-Length` is the number of bytes of the body. -/
theorem endpointsHandler_headers (quote : String → String) (endpoints : EndpointsSet) :
    Header.values (endpointsHandler quote endpoints ResponseWriter.fresh).outbound.Header
        "Content-Type" = ["application/json"] ∧
      Header.values (endpointsHandler quote endpoints ResponseWriter.fresh).outbound.Header
        "Content-Length" =
        [toString (endpointsHandler quote endpoints ResponseWriter.fresh).outbound.Body.length] := by
  have hct : CanonicalMIMEHeaderKey "Content-Type" = "Content-Type" := by decide
  have hcl : CanonicalMIMEHeaderKey "Content-Length" = "Content-Length" := by decide
  have hne : "Content-Type" ≠ "Content-Length" := by decide
  simp only [endpointsHandler, ResponseWriter.Write, ResponseWriter.WriteHeader,
    ResponseWriter.fresh, ResponseWriter.outbound, Header.Set, hct, hcl, Header.values,
    GoMap.get_set_same, GoMap.get_set_other _ _ _ _ hne, List.nil_append, Option.getD_some]
  exact ⟨trivial, trivial⟩

/-- C5, at the failing inputs: for the endpoint set of the default flags (only
`127.0.0.1`) and for the empty set, the body of the `/endpoints` response is the
four bytes `null`, not a JSON array. -/
theorem endpoints_body_null_without_peers (quote : String → String) :
    (endpointsHandler quote (NewEndpointsSet ["127.0.0.1"]) ResponseWriter.fresh).outbound =
        { StatusCode := 200
          Header := [("Content-Length", ["4"]), ("Content-Type", ["application/json"])]
          Body := utf8Bytes "null" } ∧
      (endpointsHandler quote EndpointsSet.empty ResponseWriter.fresh).outbound =
        { StatusCode := 200
          Header := [("Content-Length", ["4"]), ("Content-Type", ["application/json"])]
          Body := utf8Bytes "null" } := by
  have h1 : endpointsList (NewEndpointsSet ["127.0.0.1"]) = none := by decide
  have h2 : endpointsList EndpointsSet.empty = none := by decide
  constructor
  · simp only [endpointsHandler, h1, jsonMarshal]
    decide
  · simp only [endpointsHandler, h2, jsonMarshal]
    decide


/-! ## Adapter construction -/

theorem containsChars_iff (pat s : List Char) : containsChars pat s = true ↔ pat <:+: s := by
  induction s with
  | nil => simp [containsChars, List.infix_nil]
  | cons c cs ih =>
    rw [containsChars, Bool.or_eq_true, ih, List.isPrefixOf_iff_prefix, List.infix_cons_iff]

theorem stringsContains_iff (s substr : String) :
    stringsContains s substr = true ↔ substr.toList <:+: s.toList :=
  containsChars_iff substr.toList s.toList

/-- C6 (as amended): `createHandler` selects the network-backed adapter exactly
when `e` contains the text `http` anywhere (a reverse proxy for the parsed `e`,
or a fatal exit when `url.Parse` rejects `e`); every other string is taken as
a filesystem path: the socket-backed adapter for that path when `os.Stat`
finds it, a fatal exit when the path does not exist or `os.Stat` fails. -/
theorem createHandler_selects_by_http_substring {U : Type} (parse : String → Except String U)
    (stat : String → Except StatError Unit) (dir e : String) :
    ("http".toList <:+: e.toList → createHandler parse stat dir e = createTcpHandler parse e) ∧
      (∀ u, parse e = .ok u → createTcpHandler parse e = .ok (.reverseProxy u)) ∧
      (∀ err, parse e = .error err → createTcpHandler parse e = .fatal err) ∧
      (¬ "http".toList <:+: e.toList → stat e = .ok () →
        createHandler parse stat dir e = .ok (.unix { path := e })) ∧
      (¬ "http".toList <:+: e.toList → stat e = .error .notExist →
        createHandler parse stat dir e = .fatal ("unix socket " ++ e ++ " does not exist")) ∧
      (¬ "http".toList <:+: e.toList → ∀ msg, stat e = .error (.other msg) →
        createHandler parse stat dir e = .fatal msg) := by
  refine ⟨?_, ?_, ?_, ?_, ?_, ?_⟩
  · intro h
    simp [createHandler, (stringsContains_iff e "http").mpr h]
  · intro u hu
    simp [createTcpHandler, hu]
  · intro err herr
    simp [createTcpHandler, herr]
  · intro h hs
    have hc : stringsContains e "http" = false := by
      rw [← Bool.not_eq_true, stringsContains_iff]; exact h
    simp [createHandler, hc, hs, createUnixHandler]
  · intro h hs
    have hc : stringsContains e "http" = false := by
      rw [← Bool.not_eq_true, stringsContains_iff]; exact h
    simp [createHandler, hc, hs]
  · intro h msg hs
    have hc : stringsContains e "http" = false := by
      rw [← Bool.not_eq_true, stringsContains_iff]; exact h
    simp [createHandler, hc, hs]

/-- C6, witness: the two endpoint strings of the specification, with a parser
that accepts the URL and a filesystem where the socket exists, or does not. -/
theorem createHandler_selects_by_http_substring_witness :
    createHandler parseAny (fun _ => .ok ()) "." "http://10.0.0.1:2375" =
        createTcpHandler parseAny "http://10.0.0.1:2375" ∧
      createTcpHandler parseAny "http://10.0.0.1:2375" =
        .ok (.reverseProxy "http://10.0.0.1:2375") ∧
      createHandler parseAny (fun _ => .ok ()) "." "/var/run/docker.sock" =
        .ok (.unix { path := "/var/run/docker.sock" }) ∧
      createHandler parseAny (fun _ => .error .notExist) "." "/var/run/docker.sock" =
        .fatal ("unix socket " ++ "/var/run/docker.sock" ++ " does not exist") :=
  ⟨(createHandler_selects_by_http_substring parseAny (fun _ => .ok ()) "."
      "http://10.0.0.1:2375").1 (by rw [← stringsContains_iff]; decide),
    (createHandler_selects_by_http_substring parseAny (fun _ => .ok ()) "."
      "http://10.0.0.1:2375").2.1 _ rfl,
    (createHandler_selects_by_http_substring parseAny (fun _ => .ok ()) "."
      "/var/run/docker.sock").2.2.2.1 (by rw [← stringsContains_iff]; decide) rfl,
    (createHandler_selects_by_http_substring parseAny (fun _ => .error .notExist) "."
      "/var/run/docker.sock").2.2.2.2.1 (by rw [← stringsContains_iff]; decide) rfl⟩

/-- C6, counterexample: `/var/run/http.sock` does not begin with a scheme, yet
the network-backed adapter is selected for it even though the path exists;
`tcp://10.0.0.1:2375` begins with a scheme, yet it is taken as a filesystem
path and construction fails because no such path exists. -/
theorem createHandler_not_by_scheme :
    beginsWithScheme "/var/run/http.sock" = false ∧
      createHandler parseAny (fun _ => .ok ()) "." "/var/run/http.sock" =
        .ok (.reverseProxy "/var/run/http.sock") ∧
      beginsWithScheme "tcp://10.0.0.1:2375" = true ∧
      createHandler parseAny (fun _ => .error .notExist) "." "tcp://10.0.0.1:2375" =
        .fatal "unix socket tcp://10.0.0.1:2375 does not exist" := by
  decide


/-! ## Splitting the listen address -/

theorem splitChars_ne_nil (sep : Char) (l : List Char) : splitChars sep l ≠ [] := by
  cases l with
  | nil => simp [splitChars]
  | cons c cs =>
    unfold splitChars
    by_cases h : c = sep
    · simp [h]
    · simp only [h, if_false]
      cases splitChars sep cs <;> simp

theorem splitChars_of_not_mem (sep : Char) (l : List Char) (h : sep ∉ l) :
    splitChars sep l = [l] := by
  induction l with
  | nil => rfl
  | cons c cs ih =>
    simp only [List.mem_cons, not_or] at h
    have hc : ¬ c = sep := fun e => h.1 e.symm
    unfold splitChars
    simp only [hc, if_false, ih h.2]

theorem splitChars_append_sep (sep : Char) (a b : List Char) (h : sep ∉ a) :
    splitChars sep (a ++ sep :: b) = a :: splitChars sep b := by
  induction a with
  | nil => simp [splitChars]
  | cons c cs ih =>
    simp only [List.mem_cons, not_or] at h
    have hc : ¬ c = sep := fun e => h.1 e.symm
    rw [List.cons_append, splitChars]
    simp only [hc, if_false, ih h.2]

theorem splitChars_of_mem (sep : Char) (l : List Char) (h : sep ∈ l) :
    ∃ a b rest, splitChars sep l = a :: b :: rest := by
  induction l with
  | nil => cases h
  | cons c cs ih =>
    unfold splitChars
    by_cases hc : c = sep
    · simp only [hc, if_true]
      cases hs : splitChars sep cs with
      | nil => exact absurd hs (splitChars_ne_nil sep cs)
      | cons b rest => exact ⟨[], b, rest, rfl⟩
    · have hmem : sep ∈ cs := by
        rcases List.mem_cons.mp h with h1 | h1
        · exact absurd h1.symm hc
        · exact h1
      obtain ⟨a, b, rest, hs⟩ := ih hmem
      simp only [hc, if_false, hs]
      exact ⟨c :: a, b, rest, rfl⟩

theorem stringsSplit_host_port (host port : String)
    (hhost : ':' ∉ host.toList) (hport : ':' ∉ port.toList) :
    stringsSplit (host ++ ":" ++ port) ':' = [host, port] := by
  have hdata : (host ++ ":" ++ port).toList = host.toList ++ ':' :: port.toList := by
    simp [String.toList, String.data_append]
  unfold stringsSplit
  rw [hdata, splitChars_append_sep _ _ _ hhost, splitChars_of_not_mem _ _ hport]
  rfl

theorem listenPort_host_port (host port : String)
    (hhost : ':' ∉ host.toList) (hport : ':' ∉ port.toList) :
    listenPort (host ++ ":" ++ port) = port := by
  have hdata : (host ++ ":" ++ port).toList = host.toList ++ ':' :: port.toList := by
    simp [String.toList, String.data_append]
  unfold listenPort
  rw [hdata, splitChars_append_sep _ _ _ hhost, splitChars_of_not_mem _ _ hport]
  rfl

theorem stringsSplit_second_of_colon (addr : String) (h : ':' ∈ addr.toList) :
    ∃ port, (stringsSplit addr ':')[1]? = some port := by
  obtain ⟨a, b, rest, hs⟩ := splitChars_of_mem ':' addr.toList h
  exact ⟨String.mk b, by unfold stringsSplit; rw [hs]; simp⟩

/-! ## The membership watch loop -/

theorem watchLoop_cons_ok {U : Type} (parse : String → Except String U) (addr : String)
    (st st1 : State U) (e : NodeEvent) (es : List NodeEvent)
    (h : handleEvent parse addr st e = .ok st1) :
    watchLoop parse addr st (e :: es) = watchLoop parse addr st1 es := by
  simp [watchLoop, h]

/-- C9 (as amended): for every listen address that contains a colon, every
state and every event, processing the event never panics. A Leave event
always completes. A Join event completes when `url.Parse` accepts the target
`http://<address>:<port>/dockerapi/local`, and ends in the fatal exit of
`createTcpHandler` when `url.Parse` rejects it. Whenever the event completes,
the loop goes on with the next event from the new state. -/
theorem handleEvent_completes_unless_parse_fails {U : Type}
    (parse : String → Except String U) (addr : String) (st : State U) (e : NodeEvent)
    (es : List NodeEvent) (hcolon : ':' ∈ addr.toList) :
    (e.Event ≠ .NodeJoin → ∃ st1, handleEvent parse addr st e = .ok st1 ∧
        watchLoop parse addr st (e :: es) = watchLoop parse addr st1 es) ∧
      (e.Event = .NodeJoin → ∃ port, (stringsSplit addr ':')[1]? = some port ∧
        ((∀ u, parse ("http://" ++ e.Node.Addr ++ ":" ++ port ++ "/dockerapi/local") = .ok u →
            ∃ st1, handleEvent parse addr st e = .ok st1 ∧
              watchLoop parse addr st (e :: es) = watchLoop parse addr st1 es) ∧
          (∀ err, parse ("http://" ++ e.Node.Addr ++ ":" ++ port ++ "/dockerapi/local")
              = .error err →
            handleEvent parse addr st e = .fatal err ∧
              watchLoop parse addr st (e :: es) = .fatal err))) ∧
      ∀ msg, handleEvent parse addr st e ≠ .panic msg := by
  obtain ⟨port, hport⟩ := stringsSplit_second_of_colon addr hcolon
  refine ⟨?_, ?_, ?_⟩
  · intro he
    exact ⟨_, handleEvent_leave parse addr st e he,
      watchLoop_cons_ok parse addr st _ e es (handleEvent_leave parse addr st e he)⟩
  · intro he
    refine ⟨port, hport, ?_, ?_⟩
    · intro u hu
      have hst := handleEvent_join parse addr st e he
      rw [hport] at hst
      simp only [hu] at hst
      exact ⟨_, hst, watchLoop_cons_ok parse addr st _ e es hst⟩
    · intro err herr
      have hst := handleEvent_join parse addr st e he
      rw [hport] at hst
      simp only [herr] at hst
      exact ⟨hst, by simp [watchLoop, hst]⟩
  · intro msg
    by_cases he : e.Event = .NodeJoin
    · rw [handleEvent_join parse addr st e he, hport]
      simp only
      cases parse ("http://" ++ e.Node.Addr ++ ":" ++ port ++ "/dockerapi/local") <;> simp
    · rw [handleEvent_leave parse addr st e he]
      simp

/-- C9, witness: listen address `:9000`, a Join of `peer` at `10.0.0.2` from the
default state, then one more event. -/
theorem handleEvent_completes_unless_parse_fails_witness :
    ∃ st1, handleEvent parseAny ":9000" initialState
          { Event := .NodeJoin, Node := { Name := "peer", Addr := "10.0.0.2" } } = .ok st1 ∧
        watchLoop parseAny ":9000" initialState
            [{ Event := .NodeJoin, Node := { Name := "peer", Addr := "10.0.0.2" } },
              { Event := .NodeLeave, Node := { Name := "peer", Addr := "10.0.0.2" } }] =
          watchLoop parseAny ":9000" st1
            [{ Event := .NodeLeave, Node := { Name := "peer", Addr := "10.0.0.2" } }] := by
  obtain ⟨port, hport, hok, _⟩ :=
    (handleEvent_completes_unless_parse_fails parseAny ":9000" initialState
      { Event := .NodeJoin, Node := { Name := "peer", Addr := "10.0.0.2" } }
      [{ Event := .NodeLeave, Node := { Name := "peer", Addr := "10.0.0.2" } }]
      (by decide)).2.1 rfl
  exact hok _ rfl

/-- C9, counterexample: with the listen address `:http` (a service name for the
port) and a parser that rejects a port that is not a number, the Join of
`peer` at `10.0.0.2` ends in the fatal exit of `createTcpHandler`, and the loop
does not reach the next event. With a listen address without a colon, `9000`,
the Join panics on the index `[1]` of the split address even when the parser
accepts every URL. -/
theorem handleEvent_fatal_or_panic :
    (handleEvent parsePortChecked ":http" initialState
          { Event := .NodeJoin, Node := { Name := "peer", Addr := "10.0.0.2" } }).map
        (fun st => st.server) = .fatal "invalid port after host" ∧
      (watchLoop parsePortChecked ":http" initialState
          [{ Event := .NodeJoin, Node := { Name := "peer", Addr := "10.0.0.2" } },
            { Event := .NodeLeave, Node := { Name := "peer", Addr := "10.0.0.2" } }]).map
        (fun st => st.server) = .fatal "invalid port after host" ∧
      (handleEvent parseAny "9000" initialState
          { Event := .NodeJoin, Node := { Name := "peer", Addr := "10.0.0.2" } }).map
        (fun st => st.server) = .panic "index out of range" ∧
      (watchLoop parseAny "9000" initialState
          [{ Event := .NodeJoin, Node := { Name := "peer", Addr := "10.0.0.2" } },
            { Event := .NodeLeave, Node := { Name := "peer", Addr := "10.0.0.2" } }]).map
        (fun st => st.server) = .panic "index out of range" := by
  decide

/-- C10 (as amended): for every listen address `host:port` with no colon in
`host` or in `port`, and every Join event for peer `P` at address `A`: when
`url.Parse` accepts `http://A:port/dockerapi/local`, the event adds `A` to the
endpoint set and installs under `P` the reverse proxy for that parsed target,
where `port` is the port component of the listen address; when `url.Parse`
rejects it, the event ends in the fatal exit of `createTcpHandler`. -/
theorem join_installs_peer_target {U : Type} (parse : String → Except String U)
    (host port : String) (st : State U) (P A : String)
    (hhost : ':' ∉ host.toList) (hport : ':' ∉ port.toList) :
    listenPort (host ++ ":" ++ port) = port ∧
      (∀ u, parse ("http://" ++ A ++ ":" ++ port ++ "/dockerapi/local") = .ok u →
        ∃ st1, handleEvent parse (host ++ ":" ++ port) st
            { Event := .NodeJoin, Node := { Name := P, Addr := A } } = .ok st1 ∧
          A ∈ st1.endpoints.elems ∧
          (∀ a ∈ st.endpoints.elems, a ∈ st1.endpoints.elems) ∧
          st1.server.lookup P = some (.reverseProxy u) ∧
          ∀ name, name ≠ P → st1.server.lookup name = st.server.lookup name) ∧
      (∀ err, parse ("http://" ++ A ++ ":" ++ port ++ "/dockerapi/local") = .error err →
        handleEvent parse (host ++ ":" ++ port) st
          { Event := .NodeJoin, Node := { Name := P, Addr := A } } = .fatal err) := by
  have hsplit : (stringsSplit (host ++ ":" ++ port) ':')[1]? = some port := by
    rw [stringsSplit_host_port host port hhost hport]
    rfl
  have hst := handleEvent_join parse (host ++ ":" ++ port) st
    { Event := .NodeJoin, Node := { Name := P, Addr := A } } rfl
  rw [hsplit] at hst
  refine ⟨listenPort_host_port host port hhost hport, ?_, ?_⟩
  · intro u hu
    simp only [hu] at hst
    refine ⟨_, hst, ?_, ?_, Server.lookup_set st.server P _, ?_⟩
    · unfold EndpointsSet.Add
      by_cases hA : A ∈ st.endpoints.elems
      · simp [hA]
      · simp [hA]
    · intro a ha
      unfold EndpointsSet.Add
      by_cases hA : A ∈ st.endpoints.elems
      · simp [hA, ha]
      · simp [hA, ha]
    · intro name hne
      simp only [Server.lookup]
      rw [GoMap.get_set_other _ _ _ _ (Ne.symm hne)]
  · intro err herr
    simp only [herr] at hst
    exact hst

/-- C10, witness: listen address `:9000` and `A = 10.0.0.2`; the target is
`http://10.0.0.2:9000/dockerapi/local`. -/
theorem join_installs_peer_target_witness :
    ∃ st1, handleEvent parseAny ("" ++ ":" ++ "9000") initialState
          { Event := .NodeJoin, Node := { Name := "peer", Addr := "10.0.0.2" } } = .ok st1 ∧
        "10.0.0.2" ∈ st1.endpoints.elems ∧
        (∀ a ∈ initialState.endpoints.elems, a ∈ st1.endpoints.elems) ∧
        st1.server.lookup "peer" = some (.reverseProxy "http://10.0.0.2:9000/dockerapi/local") ∧
        ∀ name, name ≠ "peer" → st1.server.lookup name = initialState.server.lookup name :=
  (join_installs_peer_target parseAny "" "9000" initialState "peer" "10.0.0.2"
    (by decide) (by decide)).2.1 "http://10.0.0.2:9000/dockerapi/local" rfl

/-- C10, counterexample: with the listen address `:http` and a parser that
rejects a port that is not a number, the Join of `peer` at `10.0.0.2` ends in
the fatal exit of `createTcpHandler` and installs nothing. With the listen
address `[::1]:9000`, whose port component is `9000`, the Join installs the
target `http://10.0.0.2:/dockerapi/local`, with the empty text between the
first two colons of the listen address as the port, not
`http://10.0.0.2:9000/dockerapi/local`. -/
theorem join_target_not_installed_or_wrong_port :
    (handleEvent parsePortChecked ":http" initialState
          { Event := .NodeJoin, Node := { Name := "peer", Addr := "10.0.0.2" } }).map
        (fun st => st.server.lookup "peer") = .fatal "invalid port after host" ∧
      listenPort "[::1]:9000" = "9000" ∧
      (handleEvent parseAny "[::1]:9000" initialState
          { Event := .NodeJoin, Node := { Name := "peer", Addr := "10.0.0.2" } }).map
        (fun st => st.server.lookup "peer") =
        .ok (some (.reverseProxy "http://10.0.0.2:/dockerapi/local")) ∧
      (handleEvent parseAny "[::1]:9000" initialState
          { Event := .NodeJoin, Node := { Name := "peer", Addr := "10.0.0.2" } }).map
        (fun st => st.server.lookup "peer") ≠
        .ok (some (.reverseProxy
          ("http://" ++ "10.0.0.2" ++ ":" ++ listenPort "[::1]:9000" ++ "/dockerapi/local"))) := by
  decide

end DockerUI
